import Mathlib

/- Verification development for the Dataview view-layer rendering core
   (src/ui/markdown.tsx): the recursive literal renderer `Lit`, the inline
   paragraph-unwrapping loop of the `Markdown` component, and the
   `useIndexBackedState` hook, each embedded shallowly below. -/

namespace DataviewMarkdown

/-- Settings subset used by markdown.tsx (spec section 3): the recursion bound,
the markup used for Null values, and the refresh gate. -/
structure DataviewSettings where
  renderNullAs : String
  maxRecursiveRenderDepth : Nat
  refreshEnabled : Bool

/-- Modelled from the spec: the value model (`Literal` together with the
`Values` classification predicates of data-model/value) is not under src/.
Spec section 3 declares a closed variant set
(Null, String, Number, Boolean, Date, Duration, Link, EmbeddedMarkup,
Function, List, Record) with a total, mutually exclusive classification, so we
embed it as an inductive type; each `Values.isX` test of the source becomes a
match on the corresponding constructor.
Notes on individual variants:
- `num` carries an Int (the claims only exercise integral numbers; the JS
  textual form of an integral number agrees with Int.toString).
- `date` and `duration` carry the already-formatted output of the external
  formatters `renderMinimalDate` and `renderMinimalDuration` (util/normalize,
  outside src/, declared external collaborators by spec section 4.1).
- `link` carries the result of the value's own `markdown()` serialization.
- `html` carries an opaque identity for a pre-built DOM element.
- `obj` carries the JS `value?.constructor?.name` (none when the object has no
  constructor) plus the entry list that `Object.entries` would produce. -/
inductive Literal where
  | null
  | str (s : String)
  | num (n : Int)
  | bool (b : Bool)
  | date (formatted : String)
  | duration (formatted : String)
  | link (markdownForm : String)
  | html (elementId : Nat)
  | fn
  | list (xs : List Literal)
  | obj (ctorName : Option String) (entries : List (String × Literal))

/-- Output markup model for the preact tree built by markdown.tsx.
`text` is literal JSX text (entities decoded), `elem` is an element with its
class string, `fragment` is a preact Fragment, `markdown` records an
instantiation of the `Markdown` component with its content / sourcePath /
inline props, and `embed` records an `EmbedHtml` instantiation. -/
inductive Html where
  | text (s : String)
  | elem (tag : String) (cls : String) (children : List Html)
  | fragment (children : List Html)
  | markdown (content : String) (sourcePath : String) (inline : Bool)
  | embed (elementId : Nat)

/-- Embedding of the guard on line 143 of markdown.tsx:
`value?.constructor?.name && value?.constructor?.name != "Object"`.
A missing constructor name (none) and the empty string are JS-falsy, so only a
nonempty name different from "Object" counts as a non-plain object. -/
def isNonPlainObject (ctorName : Option String) : Bool :=
  match ctorName with
  | none => false
  | some name => name != "" && name != "Object"

/-- Embedding of `Lit` (markdown.tsx lines 81-175), indexed by the remaining
render budget `fuel = maxRecursiveRenderDepth - depth` instead of by `depth`
itself: the source checks `depth >= maxRecursiveRenderDepth` on entry and
recurses at `depth + 1`, which corresponds exactly to `fuel = 0` on entry and
recursion at `fuel - 1` (see the wrapper `Lit` below).  This makes the
function structurally recursive and hence kernel-computable.
Faithfulness notes (JSX semantics):
- In JSX, the text `$` before a braced expression is literal text: the source
  writes template-literal style interpolation inside JSX in the Number,
  Boolean, Date, Duration branches, in the list/object separators and in the
  non-plain-object placeholder, so each of those renders a literal dollar
  sign followed by the expression value. We keep each such dollar sign as its
  own `Html.text "$"` node.
- HTML entities are decoded: the source text sequence lt / Empty List / gt is
  the single text "<Empty List>", and likewise for the other placeholders.
- In the object branches the source maps over `Object.entries(value)` and then
  reads `entry.key` and `entry.value`; `Object.entries` yields two-element
  arrays, so both reads produce the JS value `undefined`.  preact renders an
  `undefined` child as nothing (hence no key text is emitted), and the
  recursive `Lit` call receives `undefined`, which the value model classifies
  as Null (`Values.isNull` accepts both null and undefined), so the recursive
  call is embedded as `Literal.null`.
- The `Markdown` component invocations pass no `inline` prop, so its default
  `false` applies.
- The closed variant set makes the final "Unrecognized" fallback of line 174
  unreachable, so it has no corresponding branch here. -/
def litFuel (settings : DataviewSettings) (sourcePath : String) :
    Nat → Literal → Bool → Html
  | 0, _, _ => Html.fragment [Html.text "..."]
  | fuel + 1, value, inline =>
    match value with
    | Literal.null => Html.markdown settings.renderNullAs sourcePath false
    | Literal.str s => Html.markdown s sourcePath false
    | Literal.num n => Html.fragment [Html.text "$", Html.text (toString n)]
    | Literal.bool b =>
      Html.fragment [Html.text "$", Html.text (if b then "true" else "false")]
    | Literal.date formatted =>
      Html.fragment [Html.text "$", Html.text formatted]
    | Literal.duration formatted =>
      Html.fragment [Html.text "$", Html.text formatted]
    | Literal.link markdownForm => Html.markdown markdownForm sourcePath false
    | Literal.html elementId => Html.embed elementId
    | Literal.fn => Html.fragment [Html.text "<function>"]
    | Literal.list xs =>
      if inline then
        Html.elem "ul" "dataview dataview-ul dataview-result-list-ul"
          (xs.map fun subvalue =>
            Html.elem "li" "dataview-result-list-li"
              [litFuel settings sourcePath fuel subvalue inline])
      else if xs.length == 0 then Html.fragment [Html.text "<Empty List>"]
      else
        Html.elem "span" "dataview dataview-result-list-span"
          (xs.enum.map fun p =>
            Html.fragment
              [Html.text "$", Html.text (if p.1 == 0 then "" else ", "),
               litFuel settings sourcePath fuel p.2 inline])
    | Literal.obj ctorName entries =>
      if isNonPlainObject ctorName then
        Html.fragment
          [Html.text "<", Html.text "$", Html.text (ctorName.getD ""),
           Html.text ">"]
      else if inline then
        Html.elem "ul" "dataview dataview-ul dataview-result-object-ul"
          (entries.map fun _entry =>
            Html.elem "li" "dataview dataview-li dataview-result-object-li"
              [Html.text "$", Html.text ":", Html.text " ",
               litFuel settings sourcePath fuel Literal.null inline])
      else if entries.length == 0 then
        Html.fragment [Html.text "<Empty Object>"]
      else
        Html.elem "span" "dataview dataview-result-object-span"
          (entries.enum.map fun p =>
            Html.fragment
              [Html.text "$", Html.text (if p.1 == 0 then "" else ", "),
               Html.text "$", Html.text ":", Html.text " ",
               litFuel settings sourcePath fuel Literal.null inline])

/-- The `Lit` component (markdown.tsx lines 81-175) at a given depth: the
remaining budget is `maxRecursiveRenderDepth - depth`, which is zero exactly
when `depth >= maxRecursiveRenderDepth` (the line 95 short-circuit). -/
def Lit (settings : DataviewSettings) (value : Literal) (sourcePath : String)
    (inline : Bool) (depth : Nat) : Html :=
  litFuel settings sourcePath (settings.maxRecursiveRenderDepth - depth)
    value inline

/-- Sample settings used by concrete evaluations: the spec scenario of
section 8 item 8 (renderNullAs is the en dash). -/
def demoSettings : DataviewSettings :=
  { renderNullAs := "–", maxRecursiveRenderDepth := 5, refreshEnabled := true }

/-- Sample settings for the Null round-trip scenario of spec section 8
item 7. -/
def settingsNA : DataviewSettings :=
  { renderNullAs := "N/A", maxRecursiveRenderDepth := 5,
    refreshEnabled := true }

mutual

/-- Semantic text of a markup tree: concatenated text content, where a
`Markdown` delegation node is identified with its source text (the spec's
"as child markup nodes, not a literal string, but semantically equivalent"). -/
def semanticText : Html → String
  | Html.text s => s
  | Html.elem _ _ children => semanticTextList children
  | Html.fragment children => semanticTextList children
  | Html.markdown content _ _ => content
  | Html.embed _ => ""

/-- Concatenated semantic text of a list of markup trees. -/
def semanticTextList : List Html → String
  | [] => ""
  | c :: rest => semanticText c ++ semanticTextList rest

end


/-- DOM node model for the `Markdown` component's container contents after the
asynchronous `MarkdownRenderer.renderMarkdown` delegation resolves (the
delegation is an opaque external call, so the contents are arbitrary). -/
inductive Dom where
  | text (s : String)
  | elem (tag : String) (children : List Dom)

/-- Number of paragraph (`p`) elements anywhere in a forest of DOM nodes. -/
def countPs : List Dom → Nat
  | [] => 0
  | Dom.text _ :: rest => countPs rest
  | Dom.elem tag children :: rest =>
    (if tag = "p" then 1 else 0) + countPs children + countPs rest

/-- One iteration of the unwrap loop body (markdown.tsx lines 55-59):
`container.querySelector("p")` returns the first `p` element in document
(preorder) order among all descendants of the container; `replaceWith` splices
that element's children in its place.  Returns none when no `p` exists, i.e.
when the `while` condition fails. -/
def replaceFirstP : List Dom → Option (List Dom)
  | [] => none
  | Dom.text s :: rest => (replaceFirstP rest).map (fun r => Dom.text s :: r)
  | Dom.elem tag children :: rest =>
    if tag = "p" then some (children ++ rest)
    else
      match replaceFirstP children with
      | some children2 => some (Dom.elem tag children2 :: rest)
      | none => (replaceFirstP rest).map (fun r => Dom.elem tag children :: r)

/-- The unwrap `while` loop, run with an explicit iteration budget.  Each
iteration removes exactly one `p` element (its children are preserved), so
`countPs` strictly decreases and a budget of `countPs` of the initial forest
always suffices; `unwrapParagraphs` below instantiates the budget that way,
and the fixpoint theorem for it shows the loop condition has indeed become
false when the budget runs out, so this is the exact loop semantics. -/
def unwrapFuel : Nat → List Dom → List Dom
  | 0, container => container
  | fuel + 1, container =>
    match replaceFirstP container with
    | none => container
    | some container2 => unwrapFuel fuel container2

/-- The full unwrap loop of markdown.tsx lines 55-60. -/
def unwrapParagraphs (container : List Dom) : List Dom :=
  unwrapFuel (countPs container) container

/-- The post-resolution callback of `Markdown` (markdown.tsx lines 51-61):
inline mode runs the paragraph unwrap loop, non-inline mode leaves the
container unchanged. -/
def markdownPostProcess (inline : Bool) (container : List Dom) : List Dom :=
  if inline then unwrapParagraphs container else container

/-- State of one mounted `useIndexBackedState` hook instance
(markdown.tsx lines 197-235), together with the observables the claims are
about.  preact semantics embedded in the model:
- `lastReload` is the stored hook state written by `setLastReload`.
- `capturedLastReload` is the `lastReload` value captured by the
  `refreshOperation` closure of the currently registered subscriptions.  The
  effect on lines 215-232 has dependency list `[container]`, and the container
  of a mounted instance never changes, so the effect body runs exactly once at
  mount and the subscriptions are never re-created: `capturedLastReload` stays
  at the mount-time revision even after `setLastReload` updates the store.
- `refreshComputes` counts the `compute()` calls triggered by
  `refreshOperation` (the first-load compute of lines 209-212 runs once at
  mount and is not a refresh recompute).
- `workspaceReleased` and `nodeReleased` count invocations of
  `app.workspace.offref(workEvent)` and of the `nodeEvent()` disposer from the
  effect cleanup on lines 228-231; preact runs that cleanup exactly once, at
  teardown (the dependency list never changes). -/
structure HookState (T : Type) where
  mounted : Bool
  stateVal : T
  lastReload : Nat
  capturedLastReload : Nat
  refreshComputes : Nat
  workspaceReleased : Nat
  nodeReleased : Nat

/-- Events observable by a mounted hook instance: a "dataview:refresh-views"
event-bus notification, a container visibility (onNodeInserted) callback, the
resolution of some previously triggered `compute()` promise, and container
teardown.  The notification events carry the current `index.revision` and the
current `container.isShown()` answer. -/
inductive HookEvent (T : Type) where
  | refreshNotify (revision : Nat) (shown : Bool)
  | nodeInserted (revision : Nat) (shown : Bool)
  | computeResolve (v : T)
  | unmount

/-- The `refreshOperation` closure (markdown.tsx lines 216-221): it compares
the closure-captured `lastReload` against the current `index.revision`; on a
trigger it synchronously calls `setLastReload(index.revision)` (updating the
stored `lastReload`) and starts one `compute()`.  The captured value is not
changed by the trigger (see `HookState`). -/
def refreshOperation {T : Type} (settings : DataviewSettings)
    (s : HookState T) (revision : Nat) (shown : Bool) : HookState T :=
  if s.capturedLastReload != revision && shown && settings.refreshEnabled then
    { s with lastReload := revision, refreshComputes := s.refreshComputes + 1 }
  else s

/-- One event step of the hook model.  Both subscriptions invoke the same
`refreshOperation` handler (markdown.tsx lines 224 and 226).  After teardown
the subscriptions have been released, so notifications no longer reach the
handler; a `compute()` resolution calls `updateState`, which preact ignores
for an unmounted component (spec sections 5 and 7: stale async resolution
after teardown is silently discarded); the cleanup itself runs only on the
mounted-to-unmounted transition. -/
def hookStep {T : Type} (settings : DataviewSettings) (s : HookState T) :
    HookEvent T → HookState T
  | HookEvent.refreshNotify revision shown =>
    if s.mounted then refreshOperation settings s revision shown else s
  | HookEvent.nodeInserted revision shown =>
    if s.mounted then refreshOperation settings s revision shown else s
  | HookEvent.computeResolve v =>
    if s.mounted then { s with stateVal := v } else s
  | HookEvent.unmount =>
    if s.mounted then
      { s with mounted := false,
               workspaceReleased := s.workspaceReleased + 1,
               nodeReleased := s.nodeReleased + 1 }
    else s

/-- Run a sequence of events through the hook model. -/
def runEvents {T : Type} (settings : DataviewSettings) :
    HookState T → List (HookEvent T) → HookState T
  | s, [] => s
  | s, e :: rest => runEvents settings (hookStep settings s e) rest

/-- Hook state right after mount: `useState(index.revision)` seeds
`lastReload` with the mount-time revision `r0`, the effect has registered the
two subscriptions (capturing that same `lastReload`), and no refresh recompute
has been triggered yet. -/
def hookInit {T : Type} (r0 : Nat) (initial : T) : HookState T :=
  { mounted := true, stateVal := initial, lastReload := r0,
    capturedLastReload := r0, refreshComputes := 0,
    workspaceReleased := 0, nodeReleased := 0 }

/-- Subscription-release invariant: while mounted nothing has been released;
once unmounted each of the two subscriptions has been released exactly once. -/
def hookInv {T : Type} (s : HookState T) : Prop :=
  (s.mounted = true ∧ s.workspaceReleased = 0 ∧ s.nodeReleased = 0) ∨
  (s.mounted = false ∧ s.workspaceReleased = 1 ∧ s.nodeReleased = 1)

end DataviewMarkdown

namespace DataviewMarkdown

theorem countPs_append (a b : List Dom) :
    countPs (a ++ b) = countPs a + countPs b := by
  induction a with
  | nil => simp [countPs]
  | cons d rest ih =>
    cases d with
    | text s => simpa [countPs] using ih
    | elem tag children =>
      simp only [List.cons_append, countPs, ih]
      omega

theorem replaceFirstP_none :
    ∀ l : List Dom, replaceFirstP l = none → countPs l = 0 := by
  intro l
  induction l using replaceFirstP.induct with
  | case1 => intro _; simp [countPs]
  | case2 s rest ih =>
    intro h
    simp only [replaceFirstP, Option.map_eq_none'] at h
    simpa [countPs] using ih h
  | case3 children rest =>
    intro h
    simp [replaceFirstP] at h
  | case4 tag children rest htag children2 hsome ih =>
    intro h
    simp [replaceFirstP, htag, hsome] at h
  | case5 tag children rest htag hnone ihc ihr =>
    intro h
    simp only [replaceFirstP, if_neg htag, hnone, Option.map_eq_none'] at h
    simp [countPs, htag, ihc hnone, ihr h]

theorem replaceFirstP_some :
    ∀ l l2 : List Dom, replaceFirstP l = some l2 → countPs l2 + 1 = countPs l := by
  intro l
  induction l using replaceFirstP.induct with
  | case1 => intro l2 h; simp [replaceFirstP] at h
  | case2 s rest ih =>
    intro l2 h
    simp only [replaceFirstP] at h
    cases hr : replaceFirstP rest with
    | none => rw [hr] at h; simp at h
    | some r =>
      rw [hr] at h
      simp only [Option.map_some', Option.some.injEq] at h
      subst h
      simpa [countPs] using ih r hr
  | case3 children rest =>
    intro l2 h
    simp only [replaceFirstP, if_true, Option.some.injEq, reduceIte] at h
    subst h
    simp [countPs, countPs_append]
    omega
  | case4 tag children rest htag children2 hsome ih =>
    intro l2 h
    simp only [replaceFirstP, if_neg htag, hsome, Option.some.injEq] at h
    subst h
    have := ih children2 hsome
    simp only [countPs, if_neg htag]
    omega
  | case5 tag children rest htag hnone ihc ihr =>
    intro l2 h
    simp only [replaceFirstP, if_neg htag, hnone] at h
    cases hr : replaceFirstP rest with
    | none => rw [hr] at h; simp at h
    | some r =>
      rw [hr] at h
      simp only [Option.map_some', Option.some.injEq] at h
      subst h
      have := ihr r hr
      simp only [countPs, if_neg htag]
      omega

theorem replaceFirstP_of_countPs_zero (l : List Dom) (h : countPs l = 0) :
    replaceFirstP l = none := by
  cases hr : replaceFirstP l with
  | none => rfl
  | some l2 =>
    have := replaceFirstP_some l l2 hr
    omega

theorem unwrapFuel_exhausts :
    ∀ (fuel : Nat) (l : List Dom), countPs l ≤ fuel →
      countPs (unwrapFuel fuel l) = 0 ∧
      replaceFirstP (unwrapFuel fuel l) = none := by
  intro fuel
  induction fuel with
  | zero =>
    intro l h
    have hz : countPs l = 0 := Nat.le_zero.mp h
    exact ⟨by simpa [unwrapFuel] using hz,
           by simpa [unwrapFuel] using replaceFirstP_of_countPs_zero l hz⟩
  | succ fuel ih =>
    intro l h
    cases hr : replaceFirstP l with
    | none =>
      have hz := replaceFirstP_none l hr
      exact ⟨by simpa [unwrapFuel, hr] using hz, by simp [unwrapFuel, hr]⟩
    | some l2 =>
      have hdec := replaceFirstP_some l l2 hr
      have h2 : countPs l2 ≤ fuel := by omega
      have := ih l2 h2
      simpa [unwrapFuel, hr] using this

/-- C9: for every inline-mode Markdown render, once the asynchronous
delegation has resolved (leaving arbitrary contents in the container), the
unwrap loop of markdown.tsx lines 55-60 repeatedly replaces the first
paragraph element found inside the container with its own children; the loop
terminates (each iteration removes exactly one paragraph, see
`replaceFirstP_some`) and its result contains no paragraph element at all, so
the loop exit condition (`querySelector` returning null, embedded as
`replaceFirstP` returning none) has been reached. -/
theorem markdown_inline_unwrap_no_paragraph (container : List Dom) :
    countPs (markdownPostProcess true container) = 0 ∧
    replaceFirstP (markdownPostProcess true container) = none := by
  have := unwrapFuel_exhausts (countPs container) container (Nat.le_refl _)
  simpa [markdownPostProcess, unwrapParagraphs] using this

end DataviewMarkdown

namespace DataviewMarkdown

theorem hookStep_unmounted {T : Type} (settings : DataviewSettings)
    (s : HookState T) (e : HookEvent T) (h : s.mounted = false) :
    hookStep settings s e = s := by
  cases e <;> simp [hookStep, h]

theorem runEvents_unmounted {T : Type} (settings : DataviewSettings) :
    ∀ (l : List (HookEvent T)) (s : HookState T), s.mounted = false →
      runEvents settings s l = s := by
  intro l
  induction l with
  | nil => intro s _; rfl
  | cons e rest ih =>
    intro s h
    calc runEvents settings s (e :: rest)
        = runEvents settings (hookStep settings s e) rest := rfl
      _ = runEvents settings s rest := by rw [hookStep_unmounted settings s e h]
      _ = s := ih s h

theorem hookStep_inv {T : Type} (settings : DataviewSettings)
    (s : HookState T) (e : HookEvent T) (h : hookInv s) :
    hookInv (hookStep settings s e) := by
  rcases h with ⟨h1, h2, h3⟩ | ⟨h1, h2, h3⟩
  · cases e with
    | refreshNotify revision shown =>
      show hookInv (if s.mounted = true then refreshOperation settings s revision shown else s)
      rw [if_pos h1]
      unfold refreshOperation
      split
      · exact Or.inl ⟨h1, h2, h3⟩
      · exact Or.inl ⟨h1, h2, h3⟩
    | nodeInserted revision shown =>
      show hookInv (if s.mounted = true then refreshOperation settings s revision shown else s)
      rw [if_pos h1]
      unfold refreshOperation
      split
      · exact Or.inl ⟨h1, h2, h3⟩
      · exact Or.inl ⟨h1, h2, h3⟩
    | computeResolve v =>
      show hookInv (if s.mounted = true then { s with stateVal := v } else s)
      rw [if_pos h1]
      exact Or.inl ⟨h1, h2, h3⟩
    | unmount =>
      show hookInv (if s.mounted = true then
        { s with mounted := false,
                 workspaceReleased := s.workspaceReleased + 1,
                 nodeReleased := s.nodeReleased + 1 } else s)
      rw [if_pos h1]
      exact Or.inr ⟨rfl, by simp [h2], by simp [h3]⟩
  · rw [hookStep_unmounted settings s e h1]
    exact Or.inr ⟨h1, h2, h3⟩

theorem runEvents_inv {T : Type} (settings : DataviewSettings) :
    ∀ (l : List (HookEvent T)) (s : HookState T), hookInv s →
      hookInv (runEvents settings s l) := by
  intro l
  induction l with
  | nil => intro s h; exact h
  | cons e rest ih =>
    intro s h
    exact ih (hookStep settings s e) (hookStep_inv settings s e h)

theorem runEvents_append {T : Type} (settings : DataviewSettings) :
    ∀ (a b : List (HookEvent T)) (s : HookState T),
      runEvents settings s (a ++ b)
        = runEvents settings (runEvents settings s a) b := by
  intro a
  induction a with
  | nil => intro b s; rfl
  | cons e rest ih => intro b s; exact ih b (hookStep settings s e)

theorem hookStep_unmount_unmounts {T : Type} (settings : DataviewSettings)
    (s : HookState T) :
    (hookStep settings s HookEvent.unmount).mounted = false := by
  cases hm : s.mounted with
  | false => simp [hookStep, hm]
  | true => simp [hookStep, hm]

/-- C4: after container teardown no further state mutation is applied.  For
every event trace split as `pre ++ unmount :: post`, the hook state after the
full trace equals the state right after the unmount — in particular a
`compute()` resolution arriving in `post` (a compute triggered before
teardown, resolving afterwards) leaves the visible state untouched — and the
two subscriptions registered by the effect (the workspace event ref and the
onNodeInserted disposer) have each been released exactly once. -/
theorem useIndexBackedState_teardown_final {T : Type}
    (settings : DataviewSettings) (r0 : Nat) (initial : T)
    (pre post : List (HookEvent T)) :
    runEvents settings
        (runEvents settings (hookInit r0 initial) (pre ++ [HookEvent.unmount]))
        post
      = runEvents settings (hookInit r0 initial) (pre ++ [HookEvent.unmount])
    ∧ (runEvents settings (hookInit r0 initial)
        (pre ++ [HookEvent.unmount])).workspaceReleased = 1
    ∧ (runEvents settings (hookInit r0 initial)
        (pre ++ [HookEvent.unmount])).nodeReleased = 1 := by
  have happ : runEvents settings (hookInit r0 initial) (pre ++ [HookEvent.unmount])
      = hookStep settings (runEvents settings (hookInit r0 initial) pre)
          HookEvent.unmount := by
    rw [runEvents_append]
    rfl
  have hm : (runEvents settings (hookInit r0 initial)
      (pre ++ [HookEvent.unmount])).mounted = false := by
    rw [happ]
    exact hookStep_unmount_unmounts settings _
  have hinv : hookInv (runEvents settings (hookInit r0 initial)
      (pre ++ [HookEvent.unmount])) :=
    runEvents_inv settings _ _ (Or.inl ⟨rfl, rfl, rfl⟩)
  rcases hinv with ⟨h1, _, _⟩ | ⟨_, h2, h3⟩
  · rw [hm] at h1
    simp at h1
  · exact ⟨runEvents_unmounted settings post _ hm, h2, h3⟩

/-- C2 (code evaluation for the code_bug finding): mount at index revision 0
with refresh enabled and the container shown, then deliver two
"dataview:refresh-views" notifications at the same advanced revision 1.  The
claim says the second notification triggers no additional recompute because
`lastReload` was updated synchronously at trigger time; in the code, however,
the effect of markdown.tsx lines 215-232 has dependency list `[container]`,
so the subscribed `refreshOperation` closure keeps the `lastReload` captured
at mount (0) and the second notification triggers a second `compute()`: the
refresh-triggered compute count is 2, not 1. -/
theorem useIndexBackedState_double_trigger_eval :
    (runEvents demoSettings (hookInit 0 (0 : Nat))
        [HookEvent.refreshNotify 1 true,
         HookEvent.refreshNotify 1 true]).refreshComputes = 2 := rfl

/-- C3 (counterexample): a became-visible transition (onNodeInserted) at an
unchanged index revision triggers zero recomputes, not exactly one as the
claim states: the visibility subscription of markdown.tsx line 226 invokes
the same `refreshOperation` handler, whose line 217 guard
`lastReload != index.revision` fails when the revision has not changed. -/
theorem nodeInserted_unchanged_revision_eval :
    (runEvents demoSettings (hookInit 0 (0 : Nat))
        [HookEvent.nodeInserted 0 true]).refreshComputes = 0 := rfl

/-- C3 (amended): a became-visible transition triggers a recompute exactly
when the index revision differs from the `lastReload` captured by the
subscribed handler (with the container shown and refresh enabled): at an
unchanged revision it triggers zero recomputes, and at a differing revision
it triggers exactly one. -/
theorem nodeInserted_recompute_iff_revision_advanced {T : Type}
    (settings : DataviewSettings) (s : HookState T) (revision : Nat)
    (hm : s.mounted = true) (hr : settings.refreshEnabled = true) :
    (hookStep settings s
        (HookEvent.nodeInserted s.capturedLastReload true)).refreshComputes
      = s.refreshComputes
    ∧ (revision ≠ s.capturedLastReload →
        (hookStep settings s
            (HookEvent.nodeInserted revision true)).refreshComputes
          = s.refreshComputes + 1) := by
  constructor
  · simp [hookStep, hm, refreshOperation]
  · intro hne
    simp [hookStep, hm, refreshOperation, hr, bne_iff_ne, Ne.symm hne]

/-- Witness for the amended C3 theorem at a concrete state: mounted at
revision 0 with refresh enabled; revision 1 differs from the captured 0. -/
theorem nodeInserted_recompute_iff_revision_advanced_witness :
    (hookInit 0 (0 : Nat)).mounted = true
    ∧ demoSettings.refreshEnabled = true
    ∧ ((hookStep demoSettings (hookInit 0 (0 : Nat))
          (HookEvent.nodeInserted (hookInit 0 (0 : Nat)).capturedLastReload
            true)).refreshComputes = (hookInit 0 (0 : Nat)).refreshComputes
       ∧ ((1 : Nat) ≠ (hookInit 0 (0 : Nat)).capturedLastReload →
          (hookStep demoSettings (hookInit 0 (0 : Nat))
              (HookEvent.nodeInserted 1 true)).refreshComputes
            = (hookInit 0 (0 : Nat)).refreshComputes + 1)) :=
  ⟨rfl, rfl,
   nodeInserted_recompute_iff_revision_advanced demoSettings
     (hookInit 0 (0 : Nat)) 1 rfl rfl⟩

end DataviewMarkdown

namespace DataviewMarkdown

/-- C1: for every value of every variant and every depth at or beyond
`settings.maxRecursiveRenderDepth`, `Lit` returns the terminal truncation
placeholder (the "..." fragment of markdown.tsx line 95); the result is a
constant independent of the value, so no variant dispatch or recursion takes
place. -/
theorem Lit_truncates_at_max_depth (settings : DataviewSettings)
    (value : Literal) (sourcePath : String) (inline : Bool) (depth : Nat)
    (h : settings.maxRecursiveRenderDepth ≤ depth) :
    Lit settings value sourcePath inline depth
      = Html.fragment [Html.text "..."] := by
  unfold Lit
  rw [Nat.sub_eq_zero_of_le h]
  rfl

/-- Witness for C1 at a concrete input: depth 7 with a maximum depth of 5. -/
theorem Lit_truncates_at_max_depth_witness :
    demoSettings.maxRecursiveRenderDepth ≤ 7
    ∧ Lit demoSettings (Literal.list [Literal.num 1]) "note.md" false 7
        = Html.fragment [Html.text "..."] :=
  ⟨by decide,
   Lit_truncates_at_max_depth demoSettings (Literal.list [Literal.num 1])
     "note.md" false 7 (by decide)⟩

/-- C5 (code evaluation for the code_bug finding): rendering the plain record
with the single entry ("a", 1) inline.  The claim says each entry renders as
its key, then ": ", then the rendering of the entry's value; the code
(markdown.tsx lines 150-155) maps over `Object.entries(value)` but reads
`entry.key` and `entry.value`, which are undefined on a two-element array, so
the key is dropped, a stray "$" (literal JSX text) precedes the colon, and
the value position renders the undefined value as Null, i.e. as
`renderNullAs` ("–" here) instead of the entry value 1: the semantic text is
"$: –" where the claim expects "a: 1". -/
theorem Lit_object_entry_undefined_eval :
    Lit demoSettings (Literal.obj (some "Object") [("a", Literal.num 1)])
        "note.md" true 0
      = Html.elem "ul" "dataview dataview-ul dataview-result-object-ul"
          [Html.elem "li" "dataview dataview-li dataview-result-object-li"
            [Html.text "$", Html.text ":", Html.text " ",
             Html.markdown "–" "note.md" false]]
    ∧ semanticText
        (Lit demoSettings (Literal.obj (some "Object") [("a", Literal.num 1)])
          "note.md" true 0) = "$: –" :=
  ⟨rfl, rfl⟩

/-- C6 (code evaluation for the code_bug finding): the empty-list non-inline
placeholder is as claimed, but for the spec scenario (List of 1, "a", Null
with renderNullAs the en dash, non-inline) the semantic text is not
"1, a, –": each separator fragment of markdown.tsx lines 133-136 emits a
literal "$" before the separator (JSX renders the template-literal style
interpolation as a dollar sign plus the expression), and the Number branch of
line 102 emits "$1", so the rendered text is "$$1$, a$, –". -/
theorem Lit_noninline_list_separators_eval :
    semanticText (Lit demoSettings (Literal.list []) "note.md" false 0)
      = "<Empty List>"
    ∧ semanticText
        (Lit demoSettings
          (Literal.list [Literal.num 1, Literal.str "a", Literal.null])
          "note.md" false 0)
      = "$$1$, a$, –" :=
  ⟨rfl, rfl⟩

/-- C7 (code evaluation for the code_bug finding): a Record whose constructor
name is "Frame" (not a plain mapping), containing a nested plain mapping, is
rendered as a type-name placeholder without any recursion into its entries —
but the placeholder text is "<$Frame>", not "<Frame>": markdown.tsx line 144
writes a template-literal style interpolation inside JSX, so the "$" is
literal output text. -/
theorem Lit_opaque_object_eval :
    Lit demoSettings
        (Literal.obj (some "Frame")
          [("x", Literal.obj (some "Object") [("y", Literal.num 1)])])
        "note.md" false 0
      = Html.fragment
          [Html.text "<", Html.text "$", Html.text "Frame", Html.text ">"] :=
  rfl

/-- C8: for every sourcePath (and every inline flag and depth), rendering
Null under settings with renderNullAs = "N/A" produces exactly the same
output as rendering the String "N/A": both delegate to the `Markdown`
component with the same content (markdown.tsx lines 97-100). -/
theorem Lit_null_matches_renderNullAs_string (settings : DataviewSettings)
    (sourcePath : String) (inline : Bool) (depth : Nat)
    (h : settings.renderNullAs = "N/A") :
    Lit settings Literal.null sourcePath inline depth
      = Lit settings (Literal.str "N/A") sourcePath inline depth := by
  unfold Lit
  cases hf : settings.maxRecursiveRenderDepth - depth with
  | zero => rfl
  | succ f => simp [litFuel, h]

/-- Witness for C8 at a concrete input. -/
theorem Lit_null_matches_renderNullAs_string_witness :
    settingsNA.renderNullAs = "N/A"
    ∧ Lit settingsNA Literal.null "note.md" false 0
        = Lit settingsNA (Literal.str "N/A") "note.md" false 0 :=
  ⟨rfl, Lit_null_matches_renderNullAs_string settingsNA "note.md" false 0 rfl⟩

/-- C10: below the maximum depth, an empty List rendered inline produces the
list wrapper element with zero child items (markdown.tsx lines 118-126 map
over the empty array without an emptiness check), while the "<Empty List>"
placeholder is produced only in non-inline mode (line 128). -/
theorem Lit_empty_list_inline_wrapper (settings : DataviewSettings)
    (sourcePath : String) (depth : Nat)
    (h : depth < settings.maxRecursiveRenderDepth) :
    Lit settings (Literal.list []) sourcePath true depth
      = Html.elem "ul" "dataview dataview-ul dataview-result-list-ul" []
    ∧ Lit settings (Literal.list []) sourcePath false depth
      = Html.fragment [Html.text "<Empty List>"] := by
  unfold Lit
  cases hf : settings.maxRecursiveRenderDepth - depth with
  | zero => exact absurd hf (by omega)
  | succ f => exact ⟨rfl, rfl⟩

/-- Witness for C10 at a concrete input: depth 0 with a maximum depth of 5. -/
theorem Lit_empty_list_inline_wrapper_witness :
    0 < demoSettings.maxRecursiveRenderDepth
    ∧ (Lit demoSettings (Literal.list []) "note.md" true 0
         = Html.elem "ul" "dataview dataview-ul dataview-result-list-ul" []
       ∧ Lit demoSettings (Literal.list []) "note.md" false 0
         = Html.fragment [Html.text "<Empty List>"]) :=
  ⟨by decide, Lit_empty_list_inline_wrapper demoSettings "note.md" 0 (by decide)⟩

end DataviewMarkdown
